import Mathlib

/-!
Verification of the nullable-column core of the `df` data-frame library.

The embedding models the element type `int32_t` of the worked example as `Int`
(signed overflow is undefined behaviour in the source language, so unbounded
integers are a faithful model of every defined execution); `std::optional<T>`
becomes `Option Int`, `std::vector<std::optional<T>>` becomes
`List (Option Int)`, and `size_t` indices become `Nat` (a `size_t` is never
negative; a negative index converted to `size_t` is merely a very large
in-range-or-not `Nat`).  Mutating members of `column` are modelled as
functions returning the new column state (paired with the `bool` result where
the source returns one); `const` members are pure functions of the state.
-/

namespace Df

/-! ## Optional-value operator algebra (optional_operator.hpp)

Helper functions `operator_`.  The source overloads one name on four shapes;
Lean needs four names: `u` = unary, `tb` = `T op optional`, `bt` =
`optional op T`, `bb` = `optional op optional`.
-/

/-- `operator_(const std::optional<TIn> &rhs, std::function<TOut (TIn)> func)`:
if `rhs` has a value, apply `func`, otherwise `nullopt`. -/
def operator_u {TIn TOut : Type} (rhs : Option TIn) (func : TIn → TOut) : Option TOut :=
  match rhs with
  | some x => some (func x)
  | none => none

/-- `operator_(const TIn &lhs, const std::optional<TIn> &rhs, func)`:
if `rhs` has a value, apply `func(lhs, rhs.value())`, otherwise `nullopt`. -/
def operator_tb {TIn TOut : Type} (lhs : TIn) (rhs : Option TIn) (func : TIn → TIn → TOut) :
    Option TOut :=
  match rhs with
  | some y => some (func lhs y)
  | none => none

/-- `operator_(const std::optional<TIn> &lhs, const TOut &rhs, func)`:
if `lhs` has a value, apply `func(lhs.value(), rhs)`, otherwise `nullopt`. -/
def operator_bt {TIn TOut : Type} (lhs : Option TIn) (rhs : TIn) (func : TIn → TIn → TOut) :
    Option TOut :=
  match lhs with
  | some x => some (func x rhs)
  | none => none

/-- `operator_(const std::optional<TIn> &lhs, const std::optional<TIn> &rhs, func)`:
if both have a value, apply `func`, otherwise `nullopt`. -/
def operator_bb {TIn TOut : Type} (lhs rhs : Option TIn) (func : TIn → TIn → TOut) :
    Option TOut :=
  match lhs, rhs with
  | some x, some y => some (func x y)
  | _, _ => none

/-- The five binary arithmetic operators `+ - * / %` that the header overloads
over optional operands. -/
inductive BinOp : Type
  | add | sub | mul | div | mod
deriving DecidableEq, Repr

/-- The native `int` operator each `BinOp` stands for: `std::plus`,
`std::minus`, `std::multiplies`, `std::divides`, `std::modulus` on `int32_t`.
C++ integer division truncates toward zero and `%` takes the dividend's sign,
which is `Int.tdiv` / `Int.tmod`. -/
def BinOp.denote : BinOp → Int → Int → Int
  | .add, a, b => a + b
  | .sub, a, b => a - b
  | .mul, a, b => a * b
  | .div, a, b => Int.tdiv a b
  | .mod, a, b => Int.tmod a b

/-- Shape (1) `T op std::optional<T>`: each of the five operators delegates to
`operator_<T, T>(lhs, rhs, <native functor>)`. -/
def binop_tb (op : BinOp) (lhs : Int) (rhs : Option Int) : Option Int :=
  operator_tb lhs rhs op.denote

/-- Shape (2) `std::optional<T> op T`. -/
def binop_bt (op : BinOp) (lhs : Option Int) (rhs : Int) : Option Int :=
  operator_bt lhs rhs op.denote

/-- Shape (3) `std::optional<T> op std::optional<T>`. -/
def binop_bb (op : BinOp) (lhs rhs : Option Int) : Option Int :=
  operator_bb lhs rhs op.denote

/-- Shape (4) `std::optional<T> op std::nullopt_t`: returns `std::nullopt`
unconditionally, without looking at the left operand. -/
def binop_bn (_op : BinOp) (_lhs : Option Int) : Option Int :=
  none

/-- Shape (5) `std::nullopt_t op std::optional<T>`: returns `std::nullopt`
unconditionally. -/
def binop_nb (_op : BinOp) (_rhs : Option Int) : Option Int :=
  none

/-! Unary operators on `std::optional` (`+ - ~ !`). -/

/-- `operator+(const std::optional<T>&)`: identity on the held `int`. -/
def opt_pos (rhs : Option Int) : Option Int :=
  operator_u rhs (fun x => x)

/-- `operator-(const std::optional<T>&)` via `std::negate<T>`. -/
def opt_neg (rhs : Option Int) : Option Int :=
  operator_u rhs (fun x => -x)

/-- `operator~(const std::optional<T>&)` via `std::bit_not<T>`; on a
two's-complement `int32_t`, `~x = -(x + 1)`. -/
def opt_bnot (rhs : Option Int) : Option Int :=
  operator_u rhs (fun x => -(x + 1))

/-- `operator!(const std::optional<T>&)` via `std::logical_not<T>`; on `int`,
`!x` is `x == 0`. -/
def opt_lnot (rhs : Option Int) : Option Bool :=
  operator_u rhs (fun x => x == 0)

/-! Equality (`operator==`) in its five shapes. -/

/-- `operator==(const T&, const std::optional<T>&)` via `operator_<T, bool>`
with `std::equal_to<T>`. -/
def opt_eq_tb (lhs : Int) (rhs : Option Int) : Option Bool :=
  operator_tb lhs rhs (fun a b => a == b)

/-- `operator==(const std::optional<T>&, const T&)`. -/
def opt_eq_bt (lhs : Option Int) (rhs : Int) : Option Bool :=
  operator_bt lhs rhs (fun a b => a == b)

/-- `operator==(const std::optional<T>&, const std::optional<T>&)`: if neither
side has a value the result is `true` (wrapped present by the implicit
`bool → std::optional<bool>` conversion), otherwise it delegates to
`operator_<T, bool>` with `std::equal_to<T>`. -/
def opt_eq_bb (lhs rhs : Option Int) : Option Bool :=
  if !lhs.isSome && !rhs.isSome then some true
  else operator_bb lhs rhs (fun a b => a == b)

/-- `operator==(const std::optional<T>&, const std::nullopt_t&)`: returns
`!lhs.has_value()`, implicitly converted to a present `std::optional<bool>`. -/
def opt_eq_bn (lhs : Option Int) : Option Bool :=
  some (!lhs.isSome)

/-- `operator==(const std::nullopt_t&, const std::optional<T>&)`: returns
`!rhs.has_value()`, a present `std::optional<bool>`. -/
def opt_eq_nb (rhs : Option Int) : Option Bool :=
  some (!rhs.isSome)

/-- `NULLOPT`: the token an absent optional renders as. -/
def NULLOPT : String := "Null"

/-- `operator<<(std::ostream&, const std::optional<T>&)`: the rendered form of
an optional — the held value's textual form when present, `NULLOPT` when
absent (stream modelled as the emitted string). -/
def renderOpt (rhs : Option Int) : String :=
  match rhs with
  | some v => toString v
  | none => NULLOPT

/-! ## Column (column.hpp)

`column<int32_t>`: the store `content_` is a `std::vector<std::optional<T>>`,
modelled as a list; `capacity()` / `reserve` / `shrink_to_fit` only touch the
backing allocation, which has no observable effect on the logical contents
and is not modelled. -/

structure column : Type where
  content_ : List (Option Int)
deriving DecidableEq, Repr

namespace column

/-- `test_index_(size_t index)`: `index < content_.size()` — a `size_t` cannot
be negative, so no lower-bound test appears in the source. -/
def test_index_ (c : column) (index : Nat) : Bool :=
  decide (index < c.content_.length)

/-- `size()`: `content_.size()`. -/
def size (c : column) : Nat :=
  c.content_.length

/-- `empty()`: `content_.empty()`. -/
def empty (c : column) : Bool :=
  c.content_.isEmpty

/-- `at(size_t index)`: the stored optional when `test_index_` passes,
otherwise `std::nullopt` — out-of-bounds access does not throw.  A `const`
member: a pure function of the column state. -/
def at_ (c : column) (index : Nat) : Option Int :=
  if c.test_index_ index then c.content_.getD index none else none

/-- The constructor `column(T list)` from a sequence of element values: each
element is wrapped `optional_type(element)`, i.e. present. -/
def ofList (list : List Int) : column :=
  ⟨list.map (fun element => some element)⟩

/-- Broadcast assignment `operator=(element_type value)`: `std::fill` of every
slot with `optional_type(value)`; the length of `content_` is untouched. -/
def assign (c : column) (value : Int) : column :=
  ⟨c.content_.map (fun _ => some value)⟩

/-- Broadcast assignment `operator=(std::nullopt_t)`: `std::fill` of every
slot with `std::nullopt`. -/
def assignNull (c : column) : column :=
  ⟨c.content_.map (fun _ => none)⟩

/-- `set(size_t index, element_type value) -> bool`: when `test_index_`
passes, overwrite slot `index` with a present value; return the test result
together with the (possibly unchanged) new state. -/
def set (c : column) (index : Nat) (value : Int) : Bool × column :=
  let test := c.test_index_ index
  if test then (test, ⟨c.content_.set index (some value)⟩) else (test, c)

/-- `reset(size_t index) -> bool`: when `test_index_` passes, call `.reset()`
on slot `index`, making it absent. -/
def reset (c : column) (index : Nat) : Bool × column :=
  let test := c.test_index_ index
  if test then (test, ⟨c.content_.set index none⟩) else (test, c)

/-- `set(size_t index, std::nullopt_t)`: delegates to `reset(index)`. -/
def setNull (c : column) (index : Nat) : Bool × column :=
  c.reset index

/-- The unary/one-column-binary helper `operator_(func)`: build the result by
pushing `func(element)` for each stored element, in order. -/
def operator_u (c : column) (func : Option Int → Option Int) : column :=
  ⟨c.content_.map func⟩

/-- The two-column helper `operator_(func, rhs)`: the result has
`max(size(), rhs.size())` slots, slot `i` being `func(at(i), rhs.at(i))`. -/
def operator_b (c : column) (func : Option Int → Option Int → Option Int)
    (rhs : column) : column :=
  let size := max c.size rhs.size
  ⟨(List.range size).map (fun i => func (c.at_ i) (rhs.at_ i))⟩

/-- Column unary `operator-()`: `operator_` with `[](auto x) { return -x; }`,
where `x` is a stored `std::optional`, so `-x` is `opt_neg`. -/
def negCol (c : column) : column :=
  c.operator_u opt_neg

/-- Column unary `operator+()`: `operator_` with the optional unary `+`. -/
def posCol (c : column) : column :=
  c.operator_u opt_pos

/-- Column unary `operator~()`: `operator_` with the optional `~`. -/
def bnotCol (c : column) : column :=
  c.operator_u opt_bnot

/-- `operator*(const column<T> &self, const column<T> &rhs)`: the two-column
helper with `[](auto x, auto y) { return x * y; }`; `x`, `y` are optionals,
so `x * y` is the optional-algebra shape (3) multiplication. -/
def mulCC (self rhs : column) : column :=
  self.operator_b (fun x y => binop_bb .mul x y) rhs

end column

/-! ## Element reference (column_ref, column.hpp)

A `column_ref` stores a live reference to its owning column plus `index_`.
In the embedding the handle carries only `index_`; the owning column's
*current* state is an explicit argument to every operation, which is exactly
the source's behaviour of resolving `column_.at(index_)` anew at each use. -/

structure column_ref : Type where
  index_ : Nat
deriving DecidableEq, Repr

namespace column_ref

/-- The unary helper `operator_(func)`: `func(column_.at(index_))`, resolved
against the owning column's state at the moment of use. -/
def operator_u {TOut : Type} (col : column) (r : column_ref)
    (func : Option Int → Option TOut) : Option TOut :=
  func (col.at_ r.index_)

/-- The two-reference helper `operator_(func, rhs)`:
`func(column_.at(index_), rhs.column_.at(rhs.index_))`, each side resolved
against its own column's current state. -/
def operator_b {TOut : Type} (col : column) (r : column_ref)
    (rhsCol : column) (rhs : column_ref)
    (func : Option Int → Option Int → Option TOut) : Option TOut :=
  func (col.at_ r.index_) (rhsCol.at_ rhs.index_)

/-- `has_value()`: `column_.at(index_).has_value()`. -/
def has_value (col : column) (r : column_ref) : Bool :=
  (col.at_ r.index_).isSome

/-- `value()`: `column_.at(index_).value()`; unwrapping an absent optional is
undefined in the source, so the embedding demands a presence proof. -/
def value (col : column) (r : column_ref) (h : (col.at_ r.index_).isSome) : Int :=
  (col.at_ r.index_).get h

/-- Assignment `operator=(element_type value)`: `column_.set(index_, value)`,
whose `bool` result is discarded; the new column state is returned. -/
def assign (col : column) (r : column_ref) (value : Int) : column :=
  (col.set r.index_ value).2

/-- Assignment `operator=(std::nullopt_t)`: `column_.reset(index_)`. -/
def assignNull (col : column) (r : column_ref) : column :=
  (col.reset r.index_).2

/-- Reference unary `operator-()`: the unary helper with the optional `-`. -/
def negRef (col : column) (r : column_ref) : Option Int :=
  operator_u col r opt_neg

/-- Reference unary `operator!()`: the unary helper with the optional `!`. -/
def lnotRef (col : column) (r : column_ref) : Option Bool :=
  operator_u col r opt_lnot

/-- `operator*(const column_ref<T>&, const column_ref<T>&)`: the two-reference
helper with optional-algebra multiplication. -/
def mulRR (col : column) (r : column_ref) (rhsCol : column) (rhs : column_ref) :
    Option Int :=
  operator_b col r rhsCol rhs (fun x y => binop_bb .mul x y)

/-- `operator<<` on a reference: renders `column_.at(index_)`. -/
def render (col : column) (r : column_ref) : String :=
  renderOpt (col.at_ r.index_)

end column_ref

/-! ## Shared helper lemmas -/

theorem column.at_spec (c : column) (i : Nat) :
    c.at_ i = if h : i < c.content_.length then c.content_.get ⟨i, h⟩ else none := by
  unfold column.at_ column.test_index_
  by_cases h : i < c.content_.length
  · simp [h]
  · simp [h]

theorem column.at_out (c : column) (i : Nat) (h : c.size ≤ i) : c.at_ i = none := by
  rw [column.at_spec]
  have : ¬ i < c.content_.length := Nat.not_lt.mpr h
  simp [this]

theorem column.at_rangeMap (n : Nat) (f : Nat → Option Int) (i : Nat) :
    (column.mk ((List.range n).map f)).at_ i = if i < n then f i else none := by
  rw [column.at_spec]
  by_cases h : i < n
  · have h' : i < ((List.range n).map f).length := by simpa using h
    simp [h, h', List.get_eq_getElem]
  · have h' : ¬ i < ((List.range n).map f).length := by simpa using h
    simp [h, h']

theorem column.set_fst (c : column) (i : Nat) (v : Int) :
    (c.set i v).1 = decide (i < c.size) := by
  unfold column.set column.test_index_ column.size
  by_cases h : i < c.content_.length <;> simp [h]

theorem column.reset_fst (c : column) (i : Nat) :
    (c.reset i).1 = decide (i < c.size) := by
  unfold column.reset column.test_index_ column.size
  by_cases h : i < c.content_.length <;> simp [h]

theorem column.set_content (c : column) (i : Nat) (v : Int) (h : i < c.size) :
    (c.set i v).2.content_ = c.content_.set i (some v) := by
  unfold column.set column.test_index_
  simp [column.size] at h
  simp [h]

theorem column.reset_content (c : column) (i : Nat) (h : i < c.size) :
    (c.reset i).2.content_ = c.content_.set i none := by
  unfold column.reset column.test_index_
  simp [column.size] at h
  simp [h]

theorem column.set_out (c : column) (i : Nat) (v : Int) (h : c.size ≤ i) :
    (c.set i v).2 = c := by
  unfold column.set column.test_index_
  have : ¬ i < c.content_.length := Nat.not_lt.mpr h
  simp [this]

theorem column.reset_out (c : column) (i : Nat) (h : c.size ≤ i) :
    (c.reset i).2 = c := by
  unfold column.reset column.test_index_
  have : ¬ i < c.content_.length := Nat.not_lt.mpr h
  simp [this]

theorem column.size_set (c : column) (i : Nat) (v : Int) :
    (c.set i v).2.size = c.size := by
  by_cases h : i < c.size
  · simp [column.size, column.set_content c i v h]
  · rw [column.set_out c i v (Nat.le_of_not_lt h)]

theorem column.size_reset (c : column) (i : Nat) :
    (c.reset i).2.size = c.size := by
  by_cases h : i < c.size
  · simp [column.size, column.reset_content c i h]
  · rw [column.reset_out c i (Nat.le_of_not_lt h)]

theorem column.at_set_self (c : column) (i : Nat) (v : Int) (h : i < c.size) :
    (c.set i v).2.at_ i = some v := by
  rw [column.at_spec, column.set_content c i v h]
  have hc : i < c.content_.length := h
  have h' : i < (c.content_.set i (some v)).length := by simpa using hc
  simp [h', hc, List.get_eq_getElem]

theorem column.at_reset_self (c : column) (i : Nat) (h : i < c.size) :
    (c.reset i).2.at_ i = none := by
  rw [column.at_spec, column.reset_content c i h]
  have hc : i < c.content_.length := h
  have h' : i < (c.content_.set i none).length := by simpa using hc
  simp [h', hc, List.get_eq_getElem]

theorem column.at_set_ne (c : column) (i j : Nat) (v : Int) (hne : j ≠ i) :
    (c.set i v).2.at_ j = c.at_ j := by
  by_cases h : i < c.size
  · rw [column.at_spec, column.at_spec, column.set_content c i v h]
    by_cases hj : j < c.content_.length
    · have hj' : j < (c.content_.set i (some v)).length := by simpa using hj
      simp [hj, hj', List.get_eq_getElem, List.getElem_set_ne (Ne.symm hne)]
    · have hj' : ¬ j < (c.content_.set i (some v)).length := by simpa using hj
      simp [hj, hj']
  · rw [column.set_out c i v (Nat.le_of_not_lt h)]

theorem column.at_reset_ne (c : column) (i j : Nat) (hne : j ≠ i) :
    (c.reset i).2.at_ j = c.at_ j := by
  by_cases h : i < c.size
  · rw [column.at_spec, column.at_spec, column.reset_content c i h]
    by_cases hj : j < c.content_.length
    · have hj' : j < (c.content_.set i none).length := by simpa using hj
      simp [hj, hj', List.get_eq_getElem, List.getElem_set_ne (Ne.symm hne)]
    · have hj' : ¬ j < (c.content_.set i none).length := by simpa using hj
      simp [hj, hj']
  · rw [column.reset_out c i (Nat.le_of_not_lt h)]

theorem opt_neg_opt_neg (x : Option Int) : opt_neg (opt_neg x) = x := by
  cases x <;> simp [opt_neg, operator_u]

/-! ## Claims -/

/-- C1: for every binary operator in `{+, -, *, /, %}` over optional values
and every operand shape in `{T op Opt, Opt op T, Opt op Opt,
Opt op AbsentLiteral, AbsentLiteral op Opt}`, the result is present iff every
operand capable of being absent is present, in which case it is the native
operator result wrapped present; any absent operand — the absent literal
unconditionally — forces an absent result (the embedding is total, so "`op`
is not evaluated" is captured by the result being `none` independent of the
operand values). -/
theorem c1_binop_absence_propagation (op : BinOp) (a b : Int) (x y : Option Int) :
    binop_tb op a (some b) = some (op.denote a b)
    ∧ binop_tb op a none = none
    ∧ binop_bt op (some a) b = some (op.denote a b)
    ∧ binop_bt op none b = none
    ∧ binop_bb op (some a) (some b) = some (op.denote a b)
    ∧ binop_bb op none y = none
    ∧ binop_bb op x none = none
    ∧ (binop_bb op x y = none ↔ x = none ∨ y = none)
    ∧ binop_bn op x = none
    ∧ binop_nb op y = none := by
  refine ⟨rfl, rfl, rfl, rfl, rfl, ?_, ?_, ?_, rfl, rfl⟩
  · cases y <;> rfl
  · cases x <;> rfl
  · cases x <;> cases y <;> simp [binop_bb, operator_bb]

/-- C2: `absent == absent` over two optionals is `present true`;
`present x == absent` (both operands optionals) is absent, not
`present false`; `present x == present y` is `present (x == y)`; and
comparing an optional with the absent literal on either side is a present
boolean, true exactly when the optional is absent. -/
theorem c2_equality_by_absence (x y : Int) (o : Option Int) :
    opt_eq_bb none none = some true
    ∧ opt_eq_bb (some x) none = none
    ∧ opt_eq_bb none (some y) = none
    ∧ opt_eq_bb (some x) (some y) = some (x == y)
    ∧ opt_eq_bn o = some o.isNone
    ∧ opt_eq_nb o = some o.isNone := by
  refine ⟨rfl, rfl, rfl, rfl, ?_, ?_⟩ <;> cases o <;> rfl

/-- C3: the binary operator implemented between two columns (`*`) produces a
column of size `max n m`; every element `i` — in or beyond bounds — equals
the optional-algebra result of `lhs.at(i) * rhs.at(i)`, and every element at
index `lhs.size + k` is absent, because `at` reads absent beyond a column's
own size; the operation is a total function, with no size-mismatch failure
path. -/
theorem c3_column_binop_padding (lhs rhs : column) (i k : Nat) :
    (column.mulCC lhs rhs).size = max lhs.size rhs.size
    ∧ (column.mulCC lhs rhs).at_ i = binop_bb .mul (lhs.at_ i) (rhs.at_ i)
    ∧ (column.mulCC lhs rhs).at_ (lhs.size + k) = none := by
  have hsize : (column.mulCC lhs rhs).size = max lhs.size rhs.size := by
    simp [column.mulCC, column.operator_b, column.size]
  have hat : ∀ j : Nat,
      (column.mulCC lhs rhs).at_ j = binop_bb .mul (lhs.at_ j) (rhs.at_ j) := by
    intro j
    show (column.mk ((List.range (max lhs.size rhs.size)).map
      (fun n => binop_bb .mul (lhs.at_ n) (rhs.at_ n)))).at_ j = _
    rw [column.at_rangeMap]
    by_cases hj : j < max lhs.size rhs.size
    · simp [hj]
    · have hl : lhs.at_ j = none :=
        lhs.at_out j (le_trans (le_max_left _ _) (Nat.le_of_not_lt hj))
      simp [hj, hl, binop_bb, operator_bb]
  refine ⟨hsize, hat i, ?_⟩
  rw [hat (lhs.size + k), lhs.at_out (lhs.size + k) (Nat.le_add_right _ _)]
  rfl

/-- C4: a column built from the sequence `[v0..v(n-1)]` answers `at(i)` with
`present vi` for `i < n` and with absent — never a failure — for every
`i ≥ n` (a negative C++ index converts to a huge `size_t`, i.e. some such
out-of-range `Nat`); `at` is a `const` member, modelled as a pure function,
so it cannot mutate the column. -/
theorem c4_at_safe_read (l : List Int) (i k : Nat) :
    (column.ofList l).size = l.length
    ∧ (column.ofList l).at_ i
        = (if h : i < l.length then some (l.get ⟨i, h⟩) else none)
    ∧ (column.ofList l).at_ (l.length + k) = none := by
  have hsize : (column.ofList l).size = l.length := by
    simp [column.ofList, column.size]
  refine ⟨hsize, ?_, ?_⟩
  · rw [column.at_spec]
    by_cases h : i < l.length
    · have h' : i < (l.map (fun element => some element)).length := by simpa using h
      simp [column.ofList, h, h', List.get_eq_getElem]
    · have h' : ¬ i < (l.map (fun element => some element)).length := by simpa using h
      simp [column.ofList, h, h']
  · exact (column.ofList l).at_out (l.length + k) (by rw [hsize]; exact Nat.le_add_right _ _)

/-- C7: broadcast-assigning a plain value `s` to a column of size `n` leaves
the size unchanged and makes every in-range slot `present s` (out-of-range
reads stay absent); broadcast-assigning the absent literal leaves the size
unchanged and makes every slot read absent; on the empty column both
assignments are no-ops. -/
theorem c7_broadcast_assignment (c : column) (s : Int) (i : Nat) :
    (c.assign s).size = c.size
    ∧ (c.assign s).at_ i = (if i < c.size then some s else none)
    ∧ c.assignNull.size = c.size
    ∧ c.assignNull.at_ i = none
    ∧ column.assign ⟨[]⟩ s = ⟨[]⟩
    ∧ column.assignNull ⟨[]⟩ = ⟨[]⟩ := by
  refine ⟨by simp [column.assign, column.size], ?_, by simp [column.assignNull, column.size],
    ?_, rfl, rfl⟩
  · rw [column.at_spec]
    by_cases h : i < c.size
    · have hc : i < c.content_.length := h
      have h' : i < (column.assign c s).content_.length := by
        simpa [column.assign] using hc
      simp [column.assign, h, h', hc, List.get_eq_getElem]
    · have h' : ¬ i < (column.assign c s).content_.length := by
        simpa [column.assign, column.size] using h
      simp [h, h']
  · rw [column.at_spec]
    by_cases h' : i < (column.assignNull c).content_.length
    · have hc : i < c.content_.length := by simpa [column.assignNull] using h'
      simp [column.assignNull, h', List.get_eq_getElem]
    · simp [h']

/-- C10: the element-wise unary operators return a fresh column (the receiver
is `const`, modelled as a pure function, so the original is unchanged), and
double arithmetic negation is a round trip: `-(-c)` has the same size as `c`
and is equal to `c` slot for slot — present values return to themselves and
absent slots stay absent. -/
theorem c10_double_negation_round_trip (c : column) (i : Nat) :
    c.negCol.size = c.size
    ∧ c.negCol.negCol = c
    ∧ c.negCol.negCol.at_ i = c.at_ i := by
  have hsize : c.negCol.size = c.size := by
    simp [column.negCol, column.operator_u, column.size]
  have hmap : ∀ l : List (Option Int), (l.map opt_neg).map opt_neg = l := by
    intro l
    induction l with
    | nil => rfl
    | cons hd tl ih => simp [List.map_cons, opt_neg_opt_neg, ih]
  have hrt : c.negCol.negCol = c := by
    show column.mk ((c.content_.map opt_neg).map opt_neg) = c
    rw [hmap]
  exact ⟨hsize, hrt, by rw [hrt]⟩

/-- C5: `set(i, v)` with `i < size` returns `true` and afterwards `at(i)` is
`present v`; with `i ≥ size` it returns `false` and the column — its entire
contents — is unchanged; `reset(i)` with `i < size` returns `true` and
afterwards `at(i)` is absent; with `i ≥ size` it returns `false` with no
mutation. -/
theorem c5_set_reset_bounds (c : column) (i : Nat) (v : Int) :
    (i < c.size →
      (c.set i v).1 = true ∧ (c.set i v).2.at_ i = some v
      ∧ (c.reset i).1 = true ∧ (c.reset i).2.at_ i = none)
    ∧ (c.size ≤ i →
      (c.set i v).1 = false ∧ (c.set i v).2 = c
      ∧ (c.reset i).1 = false ∧ (c.reset i).2 = c) := by
  constructor
  · intro h
    refine ⟨?_, column.at_set_self c i v h, ?_, column.at_reset_self c i h⟩
    · rw [column.set_fst]; simpa using h
    · rw [column.reset_fst]; simpa using h
  · intro h
    have h' : ¬ i < c.size := Nat.not_lt.mpr h
    refine ⟨?_, column.set_out c i v h, ?_, column.reset_out c i h⟩
    · rw [column.set_fst]; simpa using h'
    · rw [column.reset_fst]; simpa using h'

/-- Witness for C5 on the column `[present 1, absent]`: in-range index 0 and
out-of-range index 5. -/
theorem c5_set_reset_bounds_witness :
    ((column.mk [some 1, none]).set 0 5).1 = true
    ∧ ((column.mk [some 1, none]).set 0 5).2.at_ 0 = some 5
    ∧ ((column.mk [some 1, none]).reset 0).1 = true
    ∧ ((column.mk [some 1, none]).reset 0).2.at_ 0 = none
    ∧ ((column.mk [some 1, none]).set 5 7).1 = false
    ∧ ((column.mk [some 1, none]).set 5 7).2 = column.mk [some 1, none]
    ∧ ((column.mk [some 1, none]).reset 5).1 = false
    ∧ ((column.mk [some 1, none]).reset 5).2 = column.mk [some 1, none] := by
  have h1 := (c5_set_reset_bounds (column.mk [some 1, none]) 0 5).1 (by decide)
  have h2 := (c5_set_reset_bounds (column.mk [some 1, none]) 5 7).2 (by decide)
  exact ⟨h1.1, h1.2.1, h1.2.2.1, h1.2.2.2, h2.1, h2.2.1, h2.2.2.1, h2.2.2.2⟩

/-- C6: an element reference is `(column, index)` and is resolved fresh at
every use, never memoized — `has_value`, rendering, and the unary/binary
operator helpers all read the owning column's *current* state through safe
`at` (an out-of-range read yields absent, and a read after mutation sees the
new slot); assigning a plain value or the absent literal writes back through
`set`/`reset` and is a silent no-op when the bound index is out of range. -/
theorem c6_ref_fresh_resolution (c rhsCol : column) (i j : Nat) (v : Int)
    (f : Option Int → Option Int) (g : Option Int → Option Int → Option Int) :
    column_ref.operator_u c ⟨i⟩ f = f (c.at_ i)
    ∧ column_ref.operator_b c ⟨i⟩ rhsCol ⟨j⟩ g = g (c.at_ i) (rhsCol.at_ j)
    ∧ column_ref.has_value c ⟨i⟩ = (c.at_ i).isSome
    ∧ column_ref.render c ⟨i⟩ = renderOpt (c.at_ i)
    ∧ (c.size ≤ i →
        column_ref.has_value c ⟨i⟩ = false ∧ column_ref.negRef c ⟨i⟩ = none)
    ∧ (i < c.size →
        column_ref.has_value (column_ref.assign c ⟨i⟩ v) ⟨i⟩ = true
        ∧ (column_ref.assign c ⟨i⟩ v).at_ i = some v
        ∧ (column_ref.assignNull c ⟨i⟩).at_ i = none)
    ∧ (c.size ≤ i →
        column_ref.assign c ⟨i⟩ v = c ∧ column_ref.assignNull c ⟨i⟩ = c) := by
  refine ⟨rfl, rfl, rfl, rfl, ?_, ?_, ?_⟩
  · intro h
    have hat : c.at_ i = none := c.at_out i h
    constructor
    · simp [column_ref.has_value, hat]
    · simp [column_ref.negRef, column_ref.operator_u, hat, opt_neg, operator_u]
  · intro h
    have hset : (column_ref.assign c ⟨i⟩ v).at_ i = some v := column.at_set_self c i v h
    refine ⟨?_, hset, column.at_reset_self c i h⟩
    simp [column_ref.has_value, hset]
  · intro h
    exact ⟨column.set_out c i v h, column.reset_out c i h⟩

/-- Witness for C6 on the column `[present 1, absent]`: in-range index 0 and
out-of-range index 5, with `f` the optional negation and `g` the optional
multiplication. -/
theorem c6_ref_fresh_resolution_witness :
    column_ref.operator_u (column.mk [some 1, none]) ⟨0⟩ opt_neg
      = opt_neg ((column.mk [some 1, none]).at_ 0)
    ∧ column_ref.has_value (column.mk [some 1, none]) ⟨5⟩ = false
    ∧ column_ref.negRef (column.mk [some 1, none]) ⟨5⟩ = none
    ∧ column_ref.has_value
        (column_ref.assign (column.mk [some 1, none]) ⟨0⟩ 9) ⟨0⟩ = true
    ∧ (column_ref.assign (column.mk [some 1, none]) ⟨0⟩ 9).at_ 0 = some 9
    ∧ (column_ref.assignNull (column.mk [some 1, none]) ⟨0⟩).at_ 0 = none
    ∧ column_ref.assign (column.mk [some 1, none]) ⟨5⟩ 9 = column.mk [some 1, none]
    ∧ column_ref.assignNull (column.mk [some 1, none]) ⟨5⟩ = column.mk [some 1, none] := by
  have h0 := c6_ref_fresh_resolution (column.mk [some 1, none])
    (column.mk [some 1, none]) 0 0 9 opt_neg (fun x y => binop_bb .mul x y)
  have h5 := c6_ref_fresh_resolution (column.mk [some 1, none])
    (column.mk [some 1, none]) 5 0 9 opt_neg (fun x y => binop_bb .mul x y)
  have hin := h0.2.2.2.2.2.1 (by decide)
  have hout1 := h5.2.2.2.2.1 (by decide)
  have hout2 := h5.2.2.2.2.2.2 (by decide)
  exact ⟨h0.1, hout1.1, hout1.2, hin.1, hin.2.1, hin.2.2, hout2.1, hout2.2⟩

/-- C9: `set` and `reset` leave `size()` unchanged whether they succeed or
fail, and an in-range call changes only slot `i`: every other index reads the
same value through `at` before and after. -/
theorem c9_set_reset_frame (c : column) (i j : Nat) (v : Int) :
    (c.set i v).2.size = c.size
    ∧ (c.reset i).2.size = c.size
    ∧ (j ≠ i → (c.set i v).2.at_ j = c.at_ j ∧ (c.reset i).2.at_ j = c.at_ j) := by
  refine ⟨column.size_set c i v, column.size_reset c i, ?_⟩
  intro hne
  exact ⟨column.at_set_ne c i j v hne, column.at_reset_ne c i j hne⟩

/-- Witness for C9 on the column `[present 1, present 2]`: setting and
resetting index 0 preserves the size and the slot at index 1. -/
theorem c9_set_reset_frame_witness :
    ((column.mk [some 1, some 2]).set 0 5).2.size = 2
    ∧ ((column.mk [some 1, some 2]).reset 0).2.size = 2
    ∧ ((column.mk [some 1, some 2]).set 0 5).2.at_ 1
        = (column.mk [some 1, some 2]).at_ 1
    ∧ ((column.mk [some 1, some 2]).reset 0).2.at_ 1
        = (column.mk [some 1, some 2]).at_ 1 := by
  have h := c9_set_reset_frame (column.mk [some 1, some 2]) 0 1 5
  have hne := h.2.2 (by decide)
  exact ⟨h.1, h.2.1, hne.1, hne.2⟩

end Df
